import Mathlib

/-!
Verification of the VpnClashFaScoopBucket manifest-update scripts.

The definitions below are a shallow embedding of the Python sources
`Update-AppVersionsAndUrls.py`, `Update-HashesAndReadme.py`,
`update_hashes_and_readme.py` and `update_manifests.py`.
Strings are modelled by `String`, JSON-object field presence by `Option`,
byte content by `List Nat` (each < 256), and the per-package control flow of
`main` by explicit outcome types.
-/

namespace ScoopBucket

/-- One entry of a release's `assets` array, as consumed by
`find_asset_by_keywords` (`asset.get("name", "")`) and the update path
(`asset.get("browser_download_url")`). -/
structure Asset where
  name : Option String
  browser_download_url : Option String
deriving DecidableEq

/-- One GitHub release as consumed by `main` of `Update-AppVersionsAndUrls.py`:
`release.get("tag_name")`, `release.get("prerelease", False)`,
`release.get("assets", [])`. -/
structure Release where
  tag_name : Option String
  prerelease : Bool
  assets : List Asset
deriving DecidableEq

/-- The `architecture.64bit` sub-object of a manifest (fields `url`, `hash`);
`Option` models key presence. -/
structure Arch64 where
  url : Option String
  hash : Option String
deriving DecidableEq

/-- A parsed manifest document restricted to the fields the scripts touch:
top-level `version`, `url`, `hash` and `architecture.64bit`.
`architecture64 = some a` models `"architecture" in m and "64bit" in
m["architecture"]` with sub-object `a`. -/
structure Manifest where
  version : Option String
  url : Option String
  hash : Option String
  architecture64 : Option Arch64
deriving DecidableEq

/-- Python string truthiness for an optional string field:
`None` and `""` are falsy. -/
def truthyStr : Option String → Bool
  | none => false
  | some s => s ≠ ""

/-- Model of Python `str.lower()`: lower-case each character. -/
def pyLower (s : String) : String := String.mk (s.data.map Char.toLower)

/-- Model of Python `str.strip()`: drop leading and trailing whitespace
(Python indexes strings by code point, so this works on the character
list). -/
def pyStrip (s : String) : String :=
  String.mk (((s.data.dropWhile Char.isWhitespace).reverse.dropWhile
    Char.isWhitespace).reverse)

/-- Model of Python `str.startswith`: code-point prefix test. -/
def pyStartsWith (s pat : String) : Bool := pat.data.isPrefixOf s.data

/-- Model of the Python slice `s[n:]`: drop the first `n` code points. -/
def pySliceFrom (s : String) (n : Nat) : String := String.mk (s.data.drop n)

/-- Model of the Python substring test `needle in hay`: `needle` occurs as a
contiguous substring of `hay`. -/
def pyContains (hay needle : String) : Bool :=
  (List.range (hay.data.length + 1)).any fun i =>
    needle.data == ((hay.data.drop i).take needle.data.length)

/-- `find_asset_by_keywords(assets, keywords)` of `Update-AppVersionsAndUrls.py`
(lines 51-60): return the first asset whose lower-cased name contains every
lower-cased keyword; `None` when none qualifies. -/
def find_asset_by_keywords (assets : List Asset) (keywords : List String) :
    Option Asset :=
  assets.find? fun asset =>
    let name_lower := pyLower (asset.name.getD "")
    keywords.all fun keyword => pyContains name_lower (pyLower keyword)

/-- Whether one asset qualifies in `find_asset_by_keywords`: every keyword,
lower-cased, is a substring of the asset's lower-cased name. -/
def assetMatches (keywords : List String) (asset : Asset) : Bool :=
  keywords.all fun keyword =>
    pyContains (pyLower (asset.name.getD "")) (pyLower keyword)

/-- The release-selection loop of `main` in `Update-AppVersionsAndUrls.py`
(lines 132-147): take the first release not skipped by the
`not allow_prerelease and is_prerelease` test; when the loop selects nothing,
fall back to the first release provided `allow_prerelease` holds and the list
is non-empty. -/
def selectRelease (releases : List Release) (allow_prerelease : Bool) :
    Option Release :=
  match releases.find? (fun r => !(!allow_prerelease && r.prerelease)) with
  | some r => some r
  | none =>
      if allow_prerelease && !releases.isEmpty then releases.head? else none

/-- Decimal digits to a number, as Python `int` conversion of a digit run. -/
def digitsToNat (ds : List Char) : Nat :=
  ds.foldl (fun n c => n * 10 + (c.toNat - 48)) 0

/-- Maximal run matching `\d+(\.\d+)*` at the front of a character list:
returns the consumed characters and the rest.  The first argument is fuel
(call with the list length); the caller guarantees the list starts with a
digit. -/
def digitDotRun : Nat → List Char → List Char × List Char
  | 0, cs => ([], cs)
  | fuel + 1, cs =>
      let ds := cs.takeWhile Char.isDigit
      let rest := cs.dropWhile Char.isDigit
      match rest with
      | '.' :: c :: rest2 =>
          if c.isDigit then
            let (more, r) := digitDotRun fuel (c :: rest2)
            (ds ++ '.' :: more, r)
          else (ds, rest)
      | _ => (ds, rest)

/-- The anchored regex match `re.match(r"(\d+(\.\d+)*([-.].+)?)", s)` used by
`clean_version_from_tag` (line 72): when the string starts with a digit,
group 1 is the maximal `\d+(\.\d+)*` run, extended to the end of the line when
it is immediately followed by `-` or `.` and at least one further character
(`.` in the pattern does not match a newline); otherwise there is no match. -/
def regexVersionMatch (cs : List Char) : Option (List Char) :=
  match cs with
  | [] => none
  | c :: _ =>
      if c.isDigit then
        let (run, rest) := digitDotRun cs.length cs
        match rest with
        | s :: r =>
            if s = '-' ∨ s = '.' then
              let tail := r.takeWhile (fun ch => ch ≠ '\n')
              if tail = [] then some run else some (run ++ s :: tail)
            else some run
        | [] => some run
      else none

/-- `clean_version_from_tag(tag_name, prefix)` of `Update-AppVersionsAndUrls.py`
(lines 62-77): strip the configured tag prefix when present, strip surrounding
whitespace, then truncate to the version-shaped prefix when the regex
matches. -/
def clean_version_from_tag (tag_name : String) (pfx : String) : String :=
  let cleaned :=
    if pfx ≠ "" ∧ pyStartsWith tag_name pfx then
      pySliceFrom tag_name pfx.data.length
    else tag_name
  let cleaned := pyStrip cleaned
  match regexVersionMatch cleaned.data with
  | some m => String.mk m
  | none => cleaned

/-- Pre-release phase of a PEP 440 version, as recognised by
`packaging.version.parse`: alpha (`a`, `alpha`), beta (`b`, `beta`),
release candidate (`c`, `rc`, `pre`, `preview`). -/
inductive PrePhase
  | alpha
  | beta
  | rc
deriving DecidableEq

/-- Numeric rank of a pre-release phase (alpha < beta < rc). -/
def PrePhase.rank : PrePhase → Nat
  | .alpha => 0
  | .beta => 1
  | .rc => 2

/-- Model of a parsed `packaging.version.Version` restricted to the fragment
these scripts exercise: the numeric release segments and an optional
pre-release marker. -/
structure PyVersion where
  release : List Nat
  pre : Option (PrePhase × Nat)
deriving DecidableEq

/-- Spelling of a pre-release phase word accepted by `packaging`. -/
def phaseOfWord (w : String) : Option PrePhase :=
  if w = "a" ∨ w = "alpha" then some .alpha
  else if w = "b" ∨ w = "beta" then some .beta
  else if w = "c" ∨ w = "rc" ∨ w = "pre" ∨ w = "preview" then some .rc
  else none

/-- Parse the numeric release segments (`N(.N)*`) at the front of a character
list; fuel-indexed, called with the list length.  Returns the segments and the
unconsumed rest. -/
def parseSegsAux : Nat → List Char → List Nat × List Char
  | 0, cs => ([], cs)
  | fuel + 1, cs =>
      let ds := cs.takeWhile Char.isDigit
      let rest := cs.dropWhile Char.isDigit
      match rest with
      | '.' :: c :: rest2 =>
          if c.isDigit then
            let (segs, r) := parseSegsAux fuel (c :: rest2)
            (digitsToNat ds :: segs, r)
          else ([digitsToNat ds], rest)
      | _ => ([digitsToNat ds], rest)

/-- Drop one optional PEP 440 separator (`-`, `.` or `_`). -/
def dropSep : List Char → List Char
  | c :: r => if c = '-' ∨ c = '.' ∨ c = '_' then r else c :: r
  | [] => []

/-- Parse the optional pre-release suffix after the release segments, per the
PEP 440 grammar `packaging` implements: optional separator, phase word,
optional separator, optional number; anything else makes the whole version
invalid (`InvalidVersion`). -/
def parsePre (cs : List Char) : Option (Option (PrePhase × Nat)) :=
  match cs with
  | [] => some none
  | _ :: _ =>
      let cs1 := dropSep cs
      let letters := cs1.takeWhile Char.isAlpha
      let rest := cs1.dropWhile Char.isAlpha
      match phaseOfWord (String.mk letters) with
      | none => none
      | some ph =>
          let rest2 := dropSep rest
          let ds := rest2.takeWhile Char.isDigit
          let rest3 := rest2.dropWhile Char.isDigit
          if rest3 = [] then some (some (ph, digitsToNat ds)) else none

/-- Model of `packaging.version.parse` on the fragment used by the scripts:
lower-case and strip the input, allow a leading `v`, require numeric
dot-separated release segments, then an optional pre-release suffix.
`none` models a raised `InvalidVersion`. -/
def parseVersion (s : String) : Option PyVersion :=
  let cs := (pyLower (pyStrip s)).data
  let cs := match cs with
    | 'v' :: r => r
    | other => other
  match cs with
  | [] => none
  | c :: _ =>
      if c.isDigit then
        let (segs, rest) := parseSegsAux cs.length cs
        match parsePre rest with
        | some pre => some ⟨segs, pre⟩
        | none => none
      else none

/-- Three-way comparison of naturals. -/
def cmpNat (a b : Nat) : Ordering :=
  if a < b then .lt else if b < a then .gt else .eq

/-- Compare the empty segment list against `b`, padding with zeros: the
result is `eq` iff every remaining segment of `b` is zero. -/
def cmpZeros : List Nat → Ordering
  | [] => .eq
  | y :: ys => (cmpNat 0 y).then (cmpZeros ys)

/-- PEP 440 comparison of release-segment lists: position-wise numeric
comparison, missing segments padded with zero. -/
def cmpRelease : List Nat → List Nat → Ordering
  | [], b => cmpZeros b
  | x :: xs, [] => (cmpNat x 0).then (cmpRelease xs [])
  | x :: xs, y :: ys => (cmpNat x y).then (cmpRelease xs ys)

/-- PEP 440 comparison of the optional pre-release marker: a pre-release sorts
below the plain release with the same numeric segments; two pre-releases
compare by phase, then number. -/
def cmpPre : Option (PrePhase × Nat) → Option (PrePhase × Nat) → Ordering
  | none, none => .eq
  | none, some _ => .gt
  | some _, none => .lt
  | some (p, n), some (q, m) => (cmpNat p.rank q.rank).then (cmpNat n m)

/-- Comparison of two parsed versions, as `packaging.version.Version.__lt__`
and friends order them on this fragment. -/
def cmpPyVersion (a b : PyVersion) : Ordering :=
  (cmpRelease a.release b.release).then (cmpPre a.pre b.pre)

/-- Lexicographic code-point comparison of character lists: the plain string
order Python's `<` would apply to the raw version strings. -/
def charListLt : List Char → List Char → Bool
  | [], [] => false
  | [], _ :: _ => true
  | _ :: _, [] => false
  | x :: xs, y :: ys =>
      if x.toNat < y.toNat then true
      else if y.toNat < x.toNat then false
      else charListLt xs ys

/-- Plain lexical string comparison (Python `str.__lt__`), the ordering the
spec contrasts with the semantic-version-aware one. -/
def pyStrLt (a b : String) : Bool := charListLt a.data b.data

/-- The two manifest field layouts the scripts support. -/
inductive Layout
  | arch64
  | root
deriving DecidableEq

/-- The layout probe of the update block in `Update-AppVersionsAndUrls.py`
(lines 183-188): the `architecture.64bit` layout is chosen when
`"architecture" in m and "64bit" in m["architecture"] and
"url" in m["architecture"]["64bit"]`, otherwise the root layout when
`"url" in m`, otherwise no layout. -/
def readLayout (m : Manifest) : Option Layout :=
  match m.architecture64 with
  | some a =>
      if a.url.isSome then some .arch64
      else if m.url.isSome then some .root
      else none
  | none => if m.url.isSome then some .root else none

/-- The in-memory mutation and single write decision of
`Update-AppVersionsAndUrls.py` lines 180-196: set `version`, then set `url`
and clear `hash` on the `architecture.64bit` layout when its `url` key is
present, else on the root layout when its `url` key is present; with neither,
nothing is written (`continue`).  `some d` is the document handed to the file
write at lines 198-201. -/
def applyUpdate (m : Manifest) (newVersion newUrl : String) : Option Manifest :=
  let m1 := { m with version := some newVersion }
  match m1.architecture64 with
  | some _ =>
      if (m1.architecture64.bind Arch64.url).isSome then
        some { m1 with architecture64 := some ⟨some newUrl, some ""⟩ }
      else if m1.url.isSome then
        some { m1 with url := some newUrl, hash := some "" }
      else none
  | none =>
      if m1.url.isSome then some { m1 with url := some newUrl, hash := some "" }
      else none

/-- The names bound at module level in `Update-AppVersionsAndUrls.py`
(its `import` statements, constants and `def`s).  The statement
`from packaging.version import parse as parse_version` binds only
`parse_version`; the name `packaging` is never bound. -/
def avuModuleNames : List String :=
  ["os", "json", "requests", "Path", "re", "parse_version",
   "BUCKET_PATH_STR", "USER_AGENT", "REQUEST_TIMEOUT_SECONDS",
   "CONFIG_FILE_NAME", "GITHUB_API_TOKEN", "GITHUB_API_HEADERS",
   "load_apps_config", "get_github_releases_info", "find_asset_by_keywords",
   "clean_version_from_tag", "main"]

/-- Per-package outcome of one iteration of the `main` loop of
`Update-AppVersionsAndUrls.py`.  `writeManifest d` is the only outcome that
writes the manifest file, with `d` the new document;
`invalidVersionCrash` models `parse_version` raising `InvalidVersion` and the
`except packaging.version.InvalidVersion:` clause (line 211) itself raising
`NameError` because `packaging` is unbound, which escapes `main`. -/
inductive PkgOutcome
  | fetchEmpty
  | noRelease
  | noTagName
  | emptyCleaned
  | caughtComparisonError
  | invalidVersionCrash
  | notNewer
  | noAssets
  | assetNotFound
  | noUrlField
  | writeManifest (d : Manifest)
deriving DecidableEq

/-- What happens when `parse_version` raises `InvalidVersion` inside the
`try` of `main`: Python evaluates the first `except` clause expression
`packaging.version.InvalidVersion`; if the base name `packaging` were bound
the error would be caught and reported, but it is not, so the lookup raises
`NameError` and the exception escapes `main`. -/
def comparisonFailureOutcome : PkgOutcome :=
  if avuModuleNames.contains "packaging" then .caughtComparisonError
  else .invalidVersionCrash

/-- One package's inputs to the `main` loop of
`Update-AppVersionsAndUrls.py`: the parsed manifest, the fetched release
list, and the entry's `asset_keywords`, `version_strip_prefix` and
`allow_prerelease` configuration. -/
structure AppJob where
  manifest : Manifest
  releases : List Release
  keywords : List String
  prefixToStrip : String
  allowPre : Bool
deriving DecidableEq

/-- One iteration of the package loop of `main` in
`Update-AppVersionsAndUrls.py` (lines 125-214), after the manifest has been
parsed and the release list fetched: empty release list skip (line 128),
release selection (132-147), tag extraction (149-152), tag cleaning (154),
the version comparison guard (157-166), asset selection (169-177), and the
layout update plus file write (180-205). -/
def processApp (j : AppJob) : PkgOutcome :=
  if j.releases.isEmpty then .fetchEmpty
  else
    match selectRelease j.releases j.allowPre with
    | none => .noRelease
    | some rel =>
        match rel.tag_name with
        | none => .noTagName
        | some tag =>
            if clean_version_from_tag tag j.prefixToStrip = "" then
              .emptyCleaned
            else
              match parseVersion (clean_version_from_tag tag j.prefixToStrip),
                  parseVersion (j.manifest.version.getD "0.0.0") with
              | some pl, some pc =>
                  if cmpPyVersion pl pc = .gt then
                    match rel.assets with
                    | [] => .noAssets
                    | _ :: _ =>
                        match find_asset_by_keywords rel.assets j.keywords with
                        | none => .assetNotFound
                        | some asset =>
                            match asset.browser_download_url with
                            | none => .assetNotFound
                            | some newUrl =>
                                if newUrl = "" then .assetNotFound
                                else
                                  match applyUpdate j.manifest
                                      (clean_version_from_tag tag
                                        j.prefixToStrip) newUrl with
                                  | some d => .writeManifest d
                                  | none => .noUrlField
                  else .notNewer
              | _, _ => comparisonFailureOutcome

/-- The manifest file on disk after one package iteration: only the
`writeManifest` outcome rewrites it. -/
def diskAfter (orig : Manifest) : PkgOutcome → Manifest
  | .writeManifest d => d
  | _ => orig

/-- Result of a whole run of `main`: either every package was processed, or
an uncaught exception (the `NameError` for `packaging`) aborted the run,
leaving the remaining packages unprocessed. -/
inductive RunResult
  | finished (outcomes : List PkgOutcome)
  | crashed (missingName : String) (processed : List PkgOutcome)
      (remaining : Nat)
deriving DecidableEq

/-- The package loop of `main`: sequential processing, aborted by the
uncaught `NameError` from the broken `except` clause. -/
def runApps : List AppJob → RunResult
  | [] => .finished []
  | j :: rest =>
      let o := processApp j
      if o = .invalidVersionCrash then .crashed "packaging" [] rest.length
      else
        match runApps rest with
        | .finished os => .finished (o :: os)
        | .crashed n ps r => .crashed n (o :: ps) r

/-! SHA-256, the digest algorithm behind `hashlib.sha256` as used by
`calculate_sha256_hash` in both hash scripts.  Words are naturals reduced
modulo `2 ^ 32`. -/

/-- Truncate to a 32-bit word. -/
def w32 (n : Nat) : Nat := n % 4294967296

/-- 32-bit right rotation. -/
def rotr (x n : Nat) : Nat := w32 ((x >>> n) ||| (x <<< (32 - n)))

/-- Exclusive-or of three words. -/
def xor3 (x y z : Nat) : Nat := Nat.xor (Nat.xor x y) z

/-- SHA-256 small sigma 0. -/
def ssig0 (x : Nat) : Nat := xor3 (rotr x 7) (rotr x 18) (x >>> 3)

/-- SHA-256 small sigma 1. -/
def ssig1 (x : Nat) : Nat := xor3 (rotr x 17) (rotr x 19) (x >>> 10)

/-- SHA-256 big sigma 0. -/
def bsig0 (x : Nat) : Nat := xor3 (rotr x 2) (rotr x 13) (rotr x 22)

/-- SHA-256 big sigma 1. -/
def bsig1 (x : Nat) : Nat := xor3 (rotr x 6) (rotr x 11) (rotr x 25)

/-- SHA-256 choose function. -/
def chFn (e f g : Nat) : Nat :=
  Nat.xor (Nat.land e f) (Nat.land (w32 (4294967295 - e)) g)

/-- SHA-256 majority function. -/
def majFn (a b c : Nat) : Nat :=
  xor3 (Nat.land a b) (Nat.land a c) (Nat.land b c)

/-- The 64 SHA-256 round constants (FIPS 180-4, in decimal). -/
def sha256K : List Nat :=
  [1116352408, 1899447441, 3049323471, 3921009573, 961987163, 1508970993,
   2453635748, 2870763221, 3624381080, 310598401, 607225278, 1426881987,
   1925078388, 2162078206, 2614888103, 3248222580, 3835390401, 4022224774,
   264347078, 604807628, 770255983, 1249150122, 1555081692, 1996064986,
   2554220882, 2821834349, 2952996808, 3210313671, 3336571891, 3584528711,
   113926993, 338241895, 666307205, 773529912, 1294757372, 1396182291,
   1695183700, 1986661051, 2177026350, 2456956037, 2730485921, 2820302411,
   3259730800, 3345764771, 3516065817, 3600352804, 4094571909, 275423344,
   430227734, 506948616, 659060556, 883997877, 958139571, 1322822218,
   1537002063, 1747873779, 1955562222, 2024104815, 2227730452, 2361852424,
   2428436474, 2756734187, 3204031479, 3329325298]

/-- The eight SHA-256 working variables. -/
structure Hash8 where
  a : Nat
  b : Nat
  c : Nat
  d : Nat
  e : Nat
  f : Nat
  g : Nat
  h : Nat
deriving DecidableEq

/-- SHA-256 initial hash value (FIPS 180-4, in decimal). -/
def sha256H0 : Hash8 :=
  ⟨1779033703, 3144134277, 1013904242, 2773480762,
   1359893119, 2600822924, 528734635, 1541459225⟩

/-- Big-endian byte decomposition of a natural into `k` bytes. -/
def beBytes (k n : Nat) : List Nat :=
  (List.range k).map fun i => (n >>> (8 * (k - 1 - i))) % 256

/-- SHA-256 message padding: append `0x80`, zero bytes up to 56 mod 64, and
the 64-bit big-endian bit length. -/
def padMessage (msg : List Nat) : List Nat :=
  let len := msg.length
  let zeroCount := (55 + 64 - (len % 64)) % 64
  msg ++ 0x80 :: List.replicate zeroCount 0 ++ beBytes 8 (8 * len)

/-- Chunk a list into pieces of `size` (the final piece may be shorter);
fuel-indexed, called with the list length. -/
def chunksAux (size : Nat) : Nat → List Nat → List (List Nat)
  | 0, _ => []
  | _, [] => []
  | fuel + 1, l => l.take size :: chunksAux size fuel (l.drop size)

/-- Chunk a byte list into pieces of `size` bytes. -/
def chunksOf (size : Nat) (l : List Nat) : List (List Nat) :=
  chunksAux size l.length l

/-- Big-endian word from a byte list. -/
def beWord (bs : List Nat) : Nat := bs.foldl (fun acc b => acc * 256 + b) 0

/-- The sixteen 32-bit words of one 64-byte block. -/
def blockWords (block : List Nat) : List Nat :=
  (List.range 16).map fun i => beWord ((block.drop (4 * i)).take 4)

/-- Extend sixteen schedule words to sixty-four. -/
def extendSchedule (ws : List Nat) : List Nat :=
  (List.range 48).foldl
    (fun acc _ =>
      let n := acc.length
      acc ++ [w32 (ssig1 (acc.getD (n - 2) 0) + acc.getD (n - 7) 0 +
        ssig0 (acc.getD (n - 15) 0) + acc.getD (n - 16) 0)])
    ws

/-- One SHA-256 round. -/
def sha256Round (st : Hash8) (wk : Nat × Nat) : Hash8 :=
  let t1 := w32 (st.h + bsig1 st.e + chFn st.e st.f st.g + wk.2 + wk.1)
  let t2 := w32 (bsig0 st.a + majFn st.a st.b st.c)
  ⟨w32 (t1 + t2), st.a, st.b, st.c, w32 (st.d + t1), st.e, st.f, st.g⟩

/-- Compress one 64-byte block into the running hash. -/
def compressBlock (h : Hash8) (block : List Nat) : Hash8 :=
  let ws := extendSchedule (blockWords block)
  let fin := (ws.zip sha256K).foldl sha256Round h
  ⟨w32 (h.a + fin.a), w32 (h.b + fin.b), w32 (h.c + fin.c), w32 (h.d + fin.d),
   w32 (h.e + fin.e), w32 (h.f + fin.f), w32 (h.g + fin.g), w32 (h.h + fin.h)⟩

/-- The eight final SHA-256 state words of a byte message. -/
def sha256Words (msg : List Nat) : Hash8 :=
  (chunksOf 64 (padMessage msg)).foldl compressBlock sha256H0

/-- The sixteen lowercase hexadecimal digit characters. -/
def hexDigits : List Char := "0123456789abcdef".data

/-- Lowercase fixed-width hexadecimal rendering of a natural. -/
def natToHex (width n : Nat) : List Char :=
  (List.range width).map fun i =>
    hexDigits.getD ((n >>> (4 * (width - 1 - i))) % 16) '0'

/-- `hashlib.sha256(...).hexdigest()`: the 64-character lowercase hex
digest. -/
def sha256hex (msg : List Nat) : String :=
  String.mk (natToHex 8 (sha256Words msg).a ++ natToHex 8 (sha256Words msg).b ++
    natToHex 8 (sha256Words msg).c ++ natToHex 8 (sha256Words msg).d ++
    natToHex 8 (sha256Words msg).e ++ natToHex 8 (sha256Words msg).f ++
    natToHex 8 (sha256Words msg).g ++ natToHex 8 (sha256Words msg).h)

/-- `calculate_sha256_hash` of `Update-HashesAndReadme.py` (lines 19-36): the
file is read in 4096-byte chunks, each fed to the running `hashlib.sha256`
object (whose contract is that consecutive updates digest the concatenation),
and the result is `hexdigest().lower()`. -/
def calculate_sha256_hash (content : List Nat) : String :=
  pyLower (sha256hex ((chunksOf 4096 content).foldl (fun acc c => acc ++ c) []))

/-- The URL/hash extraction of `Update-HashesAndReadme.py` `main`
(lines 225-233): try `manifest.get("architecture", {}).get("64bit",
{}).get("url")` (Python truthiness, so a missing or empty URL falls
through), else the root `url`, else no layout; returns the download URL, the
current hash field and which layout was read. -/
def extractUrlHash (m : Manifest) : Option (String × Option String × Layout) :=
  if truthyStr (m.architecture64.bind Arch64.url) then
    some ((m.architecture64.bind Arch64.url).getD "",
      (m.architecture64.bind Arch64.hash, .arch64))
  else if truthyStr m.url then
    some (m.url.getD "", (m.hash, .root))
  else none

/-- The hash-update decision and write of `Update-HashesAndReadme.py` `main`
(lines 276-311) for one manifest, with the artifact's byte content given (a
successful download of unchanged upstream bytes): compute the digest, and
when it differs from the stored hash (or the stored hash is missing), set the
hash field of the layout the URL was read from and rewrite the file.  Returns
the manifest document on disk afterwards and whether a write happened. -/
def hashRepairStep (m : Manifest) (content : List Nat) : Manifest × Bool :=
  match extractUrlHash m with
  | none => (m, false)
  | some (_, currentHash, layout) =>
      let calcHash := calculate_sha256_hash content
      if calcHash ≠ "" ∧ (currentHash ≠ some calcHash ∨ currentHash = none) then
        match layout with
        | .arch64 =>
            match m.architecture64 with
            | some a =>
                ({ m with architecture64 := some { a with hash := some calcHash } },
                 true)
            | none => (m, false)
        | .root => ({ m with hash := some calcHash }, true)
      else (m, false)

/-- The hash-update decision of `update_hashes_and_readme.py` `main`
(lines 233-264), which differs from `Update-HashesAndReadme.py` in guarding
the root-layout write by `"hash" in target or current_hash is not None`
(line 243). -/
def snake_hashRepairStep (m : Manifest) (content : List Nat) :
    Manifest × Bool :=
  match extractUrlHash m with
  | none => (m, false)
  | some (_, currentHash, layout) =>
      let calcHash := calculate_sha256_hash content
      if calcHash ≠ "" ∧ currentHash ≠ some calcHash then
        match layout with
        | .arch64 =>
            match m.architecture64 with
            | some a =>
                ({ m with architecture64 := some { a with hash := some calcHash } },
                 true)
            | none => (m, false)
        | .root =>
            if m.hash.isSome ∨ currentHash.isSome then
              ({ m with hash := some calcHash }, true)
            else (m, false)
      else (m, false)

/-! File-write model for the manifest save (`Update-AppVersionsAndUrls.py`
lines 198-201, `Update-HashesAndReadme.py` lines 301-306):
`open(path, 'w')` truncates the file in place, then `json.dump` and
`f.write('\n')` append the serialized document as a sequence of chunks.
File content is a character list; a crash may stop the operation sequence at
any point. -/

/-- One file-system operation of the save sequence. -/
inductive FsOp
  | openTrunc
  | writeChunk (s : List Char)
deriving DecidableEq

/-- Effect of one operation on the file content. -/
def applyFsOp (file : List Char) : FsOp → List Char
  | .openTrunc => []
  | .writeChunk s => file ++ s

/-- Run a sequence of file operations from an initial content. -/
def runFsOps (file : List Char) (ops : List FsOp) : List Char :=
  ops.foldl applyFsOp file

/-- The operation sequence of the save: a truncating open followed by the
serialized document's chunks (`json.dump` output plus the trailing
newline). -/
def saveManifestOps (chunks : List (List Char)) : List FsOp :=
  .openTrunc :: chunks.map .writeChunk

/-- The document a completed save leaves on disk: the concatenation of the
written chunks. -/
def savedDocument (chunks : List (List Char)) : List Char :=
  chunks.foldl (fun acc c => acc ++ c) []

/-- Python `sorted` on strings: stable sort by the lexicographic
code-point order (Lean's `String` linear order). -/
def pySorted (l : List String) : List String :=
  l.mergeSort fun a b => decide (a ≤ b)

/-- The application-list construction of `update_readme_file` in
`Update-HashesAndReadme.py` (lines 133-140): when the name list is non-empty,
one `- `-prefixed line per name in sorted order; otherwise a single
placeholder line. -/
def appListForReadme (app_names_list : List String) : List String :=
  if app_names_list.isEmpty then
    ["(هنوز هیچ نرم‌افزاری به این مخزن اضافه نشده است.)"]
  else (pySorted app_names_list).map fun app_name => "- " ++ app_name

/-- The names bound at module level in `update_hashes_and_readme.py`: its
imported names, constants and `def`s.  The module defines
`update_readme_file_content` but no `update_readme_file`. -/
def snakeModuleNames : List String :=
  ["os", "json", "hashlib", "subprocess", "requests", "Path", "re",
   "BUCKET_SUBDIRECTORY", "README_FILE_NAME", "APP_LIST_START_PLACEHOLDER",
   "APP_LIST_END_PLACEHOLDER", "USER_AGENT", "REQUEST_TIMEOUT_SECONDS",
   "calculate_sha256_hash", "download_file_from_url",
   "update_readme_file_content", "main"]

/-- Result of running `main` of `update_hashes_and_readme.py`:
`exitBucketMissing` models `exit(1)` when the bucket directory is absent;
`nameError` models an unbound-name lookup after the manifest loop, carrying
the manifest documents the loop left on disk; `completed` would be a run that
reached the end, carrying whether the README was modified. -/
inductive SnakeMainResult
  | exitBucketMissing
  | nameError (disks : List Manifest) (missing : String)
  | completed (disks : List Manifest) (readmeUpdated : Bool)
deriving DecidableEq

/-- `main` of `update_hashes_and_readme.py` (lines 156-306): check the bucket
directory (line 164-166), run the hash pass over each manifest (each with its
downloaded byte content), then call `update_readme_file(...)` (line 295) —
a lookup of that name in the module's bindings, which raises `NameError`
when it is absent. -/
def snake_main (bucketDirExists : Bool) (jobs : List (Manifest × List Nat)) :
    SnakeMainResult :=
  if !bucketDirExists then .exitBucketMissing
  else
    let disks := jobs.map fun jb => (snake_hashRepairStep jb.1 jb.2).1
    if snakeModuleNames.contains "update_readme_file" then
      .completed disks true
    else .nameError disks "update_readme_file"

/-! Concrete fixtures used to instantiate the theorems below. -/

/-- A root-layout manifest at version 1.2.0. -/
def demoManifest : Manifest :=
  ⟨some "1.2.0", some "http://old", some "oldhash", none⟩

/-- An `architecture.64bit`-layout manifest with a stale hash. -/
def demoManifestArch : Manifest :=
  ⟨some "1.0", none, none, some ⟨some "http://y", some "stale"⟩⟩

/-- A root-layout manifest whose hash field is absent. -/
def demoManifestNoHash : Manifest := ⟨some "1.0", some "http://x", none, none⟩

/-- A stable release `v1.3.0` with one matching Windows asset. -/
def demoRelease : Release :=
  ⟨some "v1.3.0", false, [⟨some "app-win64.zip", some "http://new"⟩]⟩

/-- A stable release `v2.0.0` whose assets match no `linux`+`64bit` keyword
pair. -/
def demoReleaseLinux : Release :=
  ⟨some "v2.0.0", false,
   [⟨some "app-win64.zip", some "u1"⟩,
    ⟨some "app-linux-arm.tar.gz", some "u2"⟩]⟩

/-- The spec's update scenario: manifest 1.2.0, tag `v1.3.0`, keyword
`win64`. -/
def demoJob : AppJob := ⟨demoManifest, [demoRelease], ["win64"], "v", false⟩

/-- The spec's skip scenario: keywords `linux`, `64bit` against Windows and
ARM assets. -/
def demoJobNoAsset : AppJob :=
  ⟨demoManifest, [demoReleaseLinux], ["linux", "64bit"], "v", false⟩

/-- A package whose manifest version `abc` is unparsable. -/
def demoJobInvalid : AppJob :=
  ⟨⟨some "abc", some "u", some "h", none⟩, [demoRelease], ["win64"], "v",
   false⟩

/-- A release list whose only entry is a prerelease. -/
def demoPrereleaseList : List Release := [⟨some "t", true, []⟩]

/-- A one-asset list for the asset-selector witness. -/
def demoAssets : List Asset := [⟨some "app-win64.zip", some "u"⟩]

/-! ## Theorems -/

/-- Release selection ignores prerelease entries when they are disallowed:
the loop predicate reduces to the prerelease test. -/
theorem selectRelease_false_eq_find (rs : List Release) :
    selectRelease rs false = rs.find? (fun r => !r.prerelease) := by
  have hp : (fun r : Release => !(!false && r.prerelease)) =
      (fun r : Release => !r.prerelease) := by
    funext r
    simp
  unfold selectRelease
  rw [hp]
  cases hf : rs.find? (fun r => !r.prerelease) with
  | some r => rfl
  | none => simp

/--
C1: with `allow_prerelease = false` the resolver returns the first release
whose prerelease flag is false; when every release is a prerelease, or the
list is empty, it returns none (package skipped); with
`allow_prerelease = true` and a non-empty list it always returns the first
release.
-/
theorem C1_version_resolver (rs : List Release) :
    selectRelease rs false = rs.find? (fun r => !r.prerelease)
    ∧ ((∀ r ∈ rs, r.prerelease = true) → selectRelease rs false = none)
    ∧ (∀ ap, selectRelease ([] : List Release) ap = none)
    ∧ (rs ≠ [] → selectRelease rs true = rs.head?) := by
  refine ⟨selectRelease_false_eq_find rs, ?_, ?_, ?_⟩
  · intro hall
    rw [selectRelease_false_eq_find rs, List.find?_eq_none]
    intro r hr
    simp [hall r hr]
  · intro ap
    simp [selectRelease]
  · intro hne
    cases rs with
    | nil => exact absurd rfl hne
    | cons x xs => simp [selectRelease, List.find?_cons]

/-- Witness for C1 on a concrete singleton prerelease list. -/
theorem C1_version_resolver_witness :
    selectRelease demoPrereleaseList false = none
    ∧ selectRelease demoPrereleaseList true = demoPrereleaseList.head? :=
  ⟨(C1_version_resolver demoPrereleaseList).2.1 (by decide),
   (C1_version_resolver demoPrereleaseList).2.2.2 (by decide)⟩

/--
C7: the asset selector returns the first asset whose (lower-cased) filename
contains every (lower-cased) keyword as a substring, returns none when no
asset qualifies, and with the empty keyword set returns the first asset of
any non-empty list.
-/
theorem C7_asset_selector (assets : List Asset) (keywords : List String)
    (a : Asset) :
    (find_asset_by_keywords assets keywords = some a →
       assetMatches keywords a = true
       ∧ ∃ earlier later, assets = earlier ++ a :: later
           ∧ ∀ b ∈ earlier, assetMatches keywords b = false)
    ∧ ((∀ b ∈ assets, assetMatches keywords b = false) →
         find_asset_by_keywords assets keywords = none)
    ∧ find_asset_by_keywords assets [] = assets.head? := by
  have key : ∀ kws, find_asset_by_keywords assets kws =
      assets.find? (assetMatches kws) := fun _ => rfl
  refine ⟨?_, ?_, ?_⟩
  · intro h
    rw [key, List.find?_eq_some] at h
    obtain ⟨hmatch, earlier, later, heq, hearlier⟩ := h
    exact ⟨hmatch, earlier, later, heq, fun b hb => by
      simpa using hearlier b hb⟩
  · intro hall
    rw [key, List.find?_eq_none]
    intro b hb
    simp [hall b hb]
  · rw [key]
    cases assets with
    | nil => rfl
    | cons x xs => rfl

/-- Witness for C7: keyword `WIN64` selects `app-win64.zip`
case-insensitively (the returned asset matches), and the empty keyword set
returns the first asset. -/
theorem C7_asset_selector_witness :
    assetMatches ["WIN64"] ⟨some "app-win64.zip", some "u"⟩ = true
    ∧ find_asset_by_keywords demoAssets [] = demoAssets.head? :=
  ⟨((C7_asset_selector demoAssets ["WIN64"]
      ⟨some "app-win64.zip", some "u"⟩).1 (by decide)).1,
   (C7_asset_selector demoAssets [] ⟨some "app-win64.zip", some "u"⟩).2.2⟩

/-- Running only write operations folds the chunks onto the accumulated
content. -/
theorem runFsOps_writes (cl : List (List Char)) (acc : List Char) :
    runFsOps acc (cl.map .writeChunk) =
      cl.foldl (fun a c => a ++ c) acc := by
  unfold runFsOps
  rw [List.foldl_map]
  rfl

/-- The content is a prefix of any fold that appends further chunks to it. -/
theorem prefix_foldl_append (cl : List (List Char)) :
    ∀ x : List Char, x <+: cl.foldl (fun a c => a ++ c) x := by
  induction cl with
  | nil => intro x; exact List.prefix_refl x
  | cons c l ih =>
      intro x
      exact List.IsPrefix.trans (List.prefix_append x c) (ih (x ++ c))

/--
C4 counterexample: the save is not crash-atomic.  Saving the document
`NEW\n` over the old document `OLD` and crashing right after the truncating
`open(path, 'w')` leaves an empty file, which is neither the old nor the new
document.
-/
theorem C4_not_atomic_counterexample :
    ¬ (runFsOps "OLD".data ((saveManifestOps ["NEW".data, ['\n']]).take 1) =
        "OLD".data
      ∨ runFsOps "OLD".data ((saveManifestOps ["NEW".data, ['\n']]).take 1) =
          savedDocument ["NEW".data, ['\n']]) := by
  decide

/--
C4 amended: the save rewrites the manifest in place by truncating and then
appending the serialized chunks; a crash at any point leaves either the old
document (crash before the open) or a prefix of the new document (possibly
empty), and a completed save leaves exactly the new document.
-/
theorem C4_save_crash_states (old : List Char) (chunks : List (List Char))
    (k : Nat) :
    (runFsOps old ((saveManifestOps chunks).take k) = old
      ∨ runFsOps old ((saveManifestOps chunks).take k) <+:
          savedDocument chunks)
    ∧ runFsOps old (saveManifestOps chunks) = savedDocument chunks := by
  constructor
  · cases k with
    | zero => exact Or.inl rfl
    | succ j =>
        right
        have hops : (saveManifestOps chunks).take (j + 1) =
            .openTrunc :: (chunks.take j).map .writeChunk := by
          unfold saveManifestOps
          rw [List.take_succ_cons, List.map_take]
        rw [hops]
        have hrun : runFsOps old
            (.openTrunc :: (chunks.take j).map .writeChunk) =
            runFsOps [] ((chunks.take j).map .writeChunk) := rfl
        rw [hrun, runFsOps_writes]
        have hsplit : savedDocument chunks =
            (chunks.drop j).foldl (fun a c => a ++ c)
              ((chunks.take j).foldl (fun a c => a ++ c) []) := by
          unfold savedDocument
          rw [← List.foldl_append]
          rw [List.take_append_drop]
        rw [hsplit]
        exact prefix_foldl_append _ _
  · have : runFsOps old (saveManifestOps chunks) =
        runFsOps [] (chunks.map .writeChunk) := rfl
    rw [this, runFsOps_writes]
    rfl

/-- Python string order (`a ≤ b`) is transitive on the decidable test used
by `pySorted`. -/
theorem pyStrLe_trans (a b c : String) :
    decide (a ≤ b) → decide (b ≤ c) → decide (a ≤ c) := by
  intro h1 h2
  exact decide_eq_true (le_trans (of_decide_eq_true h1) (of_decide_eq_true h2))

/-- Python string order is total on the decidable test used by
`pySorted`. -/
theorem pyStrLe_total (a b : String) :
    decide (a ≤ b) || decide (b ≤ a) := by
  rcases le_total a b with h | h
  · rw [decide_eq_true h, Bool.true_or]
  · rw [decide_eq_true h, Bool.or_true]

/--
C9 counterexample: the README list is not de-duplicated.  For the processed
name sequence `["a", "a"]` the produced list is `["- a", "- a"]`, which
contains the name `a` twice.
-/
theorem C9_not_deduplicated_counterexample :
    ¬ (appListForReadme ["a", "a"]).Nodup := by
  have hperm : (pySorted ["a", "a"]).Perm (List.replicate 2 "a") :=
    List.mergeSort_perm ["a", "a"] _
  have hsorted : pySorted ["a", "a"] = ["a", "a"] :=
    List.perm_replicate.mp hperm
  have : appListForReadme ["a", "a"] = ["- a", "- a"] := by
    unfold appListForReadme
    rw [if_neg (by decide), hsorted]
    rfl
  rw [this]
  decide

/--
C9 amended: the produced list is the processed names in sorted order, each
prefixed with `- `; it is a permutation of the input (no de-duplication is
performed), and it is duplicate-free exactly when the input names are
already distinct.
-/
theorem C9_readme_list_sorted (names : List String) :
    (pySorted names).Pairwise (fun a b => a ≤ b)
    ∧ (pySorted names).Perm names
    ∧ (names.isEmpty = false →
        appListForReadme names =
          (pySorted names).map (fun n => "- " ++ n))
    ∧ (names.Nodup → (appListForReadme names).Nodup) := by
  have hpair : (pySorted names).Pairwise (fun a b => a ≤ b) := by
    have := @List.sorted_mergeSort String (fun a b : String => decide (a ≤ b))
      pyStrLe_trans pyStrLe_total names
    exact this.imp of_decide_eq_true
  have hperm : (pySorted names).Perm names := List.mergeSort_perm names _
  refine ⟨hpair, hperm, ?_, ?_⟩
  · intro hne
    unfold appListForReadme
    rw [if_neg (by simp [hne])]
  · intro hnodup
    have hsortnd : (pySorted names).Nodup := (hperm.nodup_iff).mpr hnodup
    cases hn : names.isEmpty with
    | true =>
        have : names = [] := List.isEmpty_iff.mp hn
        subst this
        simp [appListForReadme]
    | false =>
        unfold appListForReadme
        rw [if_neg (by simp [hn])]
        refine List.Nodup.map ?_ hsortnd
        intro a b h
        have hd := congrArg String.data h
        simp only [String.data_append] at hd
        exact congrArg String.mk (List.append_cancel_left hd)

/-- Witness for C9 on the concrete distinct name list `["b", "a"]`. -/
theorem C9_readme_list_sorted_witness :
    appListForReadme ["b", "a"] =
      (pySorted ["b", "a"]).map (fun n => "- " ++ n)
    ∧ (appListForReadme ["b", "a"]).Nodup :=
  ⟨(C9_readme_list_sorted ["b", "a"]).2.2.1 rfl,
   (C9_readme_list_sorted ["b", "a"]).2.2.2 (by decide)⟩

/-- `cmpNat` is reflexive. -/
theorem cmpNat_self (n : Nat) : cmpNat n n = .eq := by
  simp [cmpNat]

/-- `cmpRelease` is reflexive. -/
theorem cmpRelease_self (l : List Nat) : cmpRelease l l = .eq := by
  induction l with
  | nil => rfl
  | cons x xs ih => simp [cmpRelease, cmpNat_self, ih, Ordering.then]

/--
C2: the version comparison is semantic, not lexical: `10.0.0` parses to
numeric segments and compares greater than `9.0.0`, while plain lexical
string comparison would order it smaller; a version with a pre-release
suffix compares below the same numeric prefix without the suffix; and every
manifest write performed by the update loop requires the resolved version to
compare strictly greater than the manifest's current version.
-/
theorem C2_semver_comparison :
    (parseVersion "10.0.0" = some ⟨[10, 0, 0], none⟩
      ∧ parseVersion "9.0.0" = some ⟨[9, 0, 0], none⟩
      ∧ cmpPyVersion ⟨[10, 0, 0], none⟩ ⟨[9, 0, 0], none⟩ = .gt
      ∧ pyStrLt "10.0.0" "9.0.0" = true)
    ∧ (∀ (rel : List Nat) (p : PrePhase × Nat),
        cmpPyVersion ⟨rel, some p⟩ ⟨rel, none⟩ = .lt)
    ∧ (parseVersion "1.2.0-beta" = some ⟨[1, 2, 0], some (.beta, 0)⟩
      ∧ cmpPyVersion ⟨[1, 2, 0], some (.beta, 0)⟩ ⟨[1, 2, 0], none⟩ = .lt)
    ∧ (∀ (j : AppJob) (d : Manifest), processApp j = .writeManifest d →
        ∃ rel tag pl pc,
          selectRelease j.releases j.allowPre = some rel
          ∧ rel.tag_name = some tag
          ∧ parseVersion (clean_version_from_tag tag j.prefixToStrip) = some pl
          ∧ parseVersion (j.manifest.version.getD "0.0.0") = some pc
          ∧ cmpPyVersion pl pc = .gt) := by
  refine ⟨by decide, ?_, by decide, ?_⟩
  · intro rel p
    unfold cmpPyVersion
    rw [cmpRelease_self]
    rfl
  · intro j d h
    unfold processApp at h
    split at h
    · simp at h
    · split at h
      · simp at h
      · rename_i rel hsel
        split at h
        · simp at h
        · rename_i tag htag
          split at h
          · simp at h
          · rename_i hcl
            split at h
            · rename_i pl pc hpl hpc
              split at h
              · rename_i hgt
                exact ⟨rel, tag, pl, pc, hsel, htag, hpl, hpc, hgt⟩
              · simp at h
            · have hco : comparisonFailureOutcome =
                  PkgOutcome.invalidVersionCrash := by decide
              rw [hco] at h
              simp at h

/-- Witness for C2: the spec's update scenario (manifest `1.2.0`, tag
`v1.3.0`) writes the manifest, so its resolved version compares strictly
greater than the current one. -/
theorem C2_semver_comparison_witness :
    ∃ rel tag pl pc,
      selectRelease demoJob.releases demoJob.allowPre = some rel
      ∧ rel.tag_name = some tag
      ∧ parseVersion (clean_version_from_tag tag demoJob.prefixToStrip) =
          some pl
      ∧ parseVersion (demoJob.manifest.version.getD "0.0.0") = some pc
      ∧ cmpPyVersion pl pc = .gt :=
  C2_semver_comparison.2.2.2 demoJob
    ⟨some "1.3.0", some "http://new", some "", none⟩ (by decide)

/--
C5: when the resolved version is strictly greater than the manifest version
but the release has no assets, or no asset matches all keywords, or the
matched asset lacks a (truthy) download URL, the manifest file on disk is
left unchanged: a new version is never persisted without a valid new URL.
-/
theorem C5_no_asset_no_write (j : AppJob) (rel : Release) (tag : String)
    (pl pc : PyVersion)
    (hne : j.releases.isEmpty = false)
    (hsel : selectRelease j.releases j.allowPre = some rel)
    (htag : rel.tag_name = some tag)
    (hcl : clean_version_from_tag tag j.prefixToStrip ≠ "")
    (hpl : parseVersion (clean_version_from_tag tag j.prefixToStrip) = some pl)
    (hpc : parseVersion (j.manifest.version.getD "0.0.0") = some pc)
    (hgt : cmpPyVersion pl pc = .gt)
    (hfail : rel.assets = []
      ∨ find_asset_by_keywords rel.assets j.keywords = none
      ∨ ∃ a, find_asset_by_keywords rel.assets j.keywords = some a
          ∧ (a.browser_download_url = none
             ∨ a.browser_download_url = some "")) :
    diskAfter j.manifest (processApp j) = j.manifest := by
  have hstep : processApp j = .noAssets ∨ processApp j = .assetNotFound := by
    unfold processApp
    rw [hne]
    simp only [Bool.false_eq_true, if_false, hsel, htag, if_neg hcl, hpl,
      hpc, hgt, if_pos rfl]
    rcases hfail with h0 | h1 | ⟨a, hfind, hurl⟩
    · rw [h0]
      exact Or.inl rfl
    · cases hassets : rel.assets with
      | nil => exact Or.inl rfl
      | cons x xs =>
          rw [hassets] at h1
          simp only [h1]
          exact Or.inr rfl
    · cases hassets : rel.assets with
      | nil => exact Or.inl rfl
      | cons x xs =>
          rw [hassets] at hfind
          simp only [hfind]
          rcases hurl with hu | hu
          · simp only [hu]
            exact Or.inr rfl
          · simp only [hu, if_pos rfl]
            exact Or.inr rfl
  rcases hstep with h | h <;> rw [h] <;> rfl

/-- Witness for C5: the spec's scenario with keywords `linux`, `64bit`
against a Windows and an ARM asset leaves the manifest unchanged. -/
theorem C5_no_asset_no_write_witness :
    diskAfter demoJobNoAsset.manifest (processApp demoJobNoAsset) =
      demoJobNoAsset.manifest :=
  C5_no_asset_no_write demoJobNoAsset demoReleaseLinux "v2.0.0"
    ⟨[2, 0, 0], none⟩ ⟨[1, 2, 0], none⟩ (by decide) (by decide) (by decide)
    (by decide) (by decide) (by decide) (by decide)
    (Or.inr (Or.inl (by decide)))

/--
C6: a version update writes the new version and URL to the same layout the
update block probes for the URL (`architecture.64bit` first, else root),
clears that layout's hash to the empty string, leaves the other layout's
fields untouched, and never writes when no layout has a URL field.
-/
theorem C6_same_layout_write (m : Manifest) (v u : String) :
    (readLayout m = some .arch64 →
      applyUpdate m v u =
        some { version := some v, url := m.url, hash := m.hash,
               architecture64 := some ⟨some u, some ""⟩ })
    ∧ (readLayout m = some .root →
      applyUpdate m v u =
        some { version := some v, url := some u, hash := some "",
               architecture64 := m.architecture64 })
    ∧ (readLayout m = none → applyUpdate m v u = none) := by
  rcases m with ⟨ver, url, hsh, arch⟩
  rcases arch with _ | ⟨aurl, ahash⟩
  · rcases url with _ | us
    · refine ⟨?_, ?_, ?_⟩ <;> intro h
      · simp [readLayout] at h
      · simp [readLayout] at h
      · simp [applyUpdate]
    · refine ⟨?_, ?_, ?_⟩ <;> intro h
      · simp [readLayout] at h
      · simp [applyUpdate]
      · simp [readLayout] at h
  · rcases aurl with _ | au
    · rcases url with _ | us
      · refine ⟨?_, ?_, ?_⟩ <;> intro h
        · simp [readLayout] at h
        · simp [readLayout] at h
        · simp [applyUpdate]
      · refine ⟨?_, ?_, ?_⟩ <;> intro h
        · simp [readLayout] at h
        · simp [applyUpdate]
        · simp [readLayout] at h
    · refine ⟨?_, ?_, ?_⟩ <;> intro h
      · simp [applyUpdate]
      · simp [readLayout] at h
      · simp [readLayout] at h

/-- Witness for C6 on a concrete `architecture.64bit`-layout manifest. -/
theorem C6_same_layout_write_witness :
    applyUpdate demoManifestArch "2.0" "http://n" =
      some { version := some "2.0", url := demoManifestArch.url,
             hash := demoManifestArch.hash,
             architecture64 := some ⟨some "http://n", some ""⟩ } :=
  (C6_same_layout_write demoManifestArch "2.0" "http://n").1 (by decide)

/--
C3 (refuted by the code): an unparsable version string does not produce a
caught, per-package error.  `from packaging.version import parse` never
binds the name `packaging`, so when `parse_version` raises
`InvalidVersion` the `except packaging.version.InvalidVersion:` clause
itself raises `NameError`, which escapes `main`: with the unparsable
manifest version `abc` in the first package, the run aborts and the second
(valid) package is never processed.
-/
theorem C3_comparison_failure_crashes_run :
    parseVersion "abc" = none
    ∧ avuModuleNames.contains "packaging" = false
    ∧ comparisonFailureOutcome = .invalidVersionCrash
    ∧ processApp demoJobInvalid = .invalidVersionCrash
    ∧ runApps [demoJobInvalid, demoJob] = .crashed "packaging" [] 1 := by
  decide

/--
C10: in `update_hashes_and_readme.py`, every execution of `main` that passes
the bucket-directory precondition reaches the README step and fails with an
undefined-name error, because `main` calls `update_readme_file` while the
module defines only `update_readme_file_content`; the README is therefore
never updated by this variant.
-/
theorem C10_snake_main_name_error (jobs : List (Manifest × List Nat)) :
    snakeModuleNames.contains "update_readme_file_content" = true
    ∧ snakeModuleNames.contains "update_readme_file" = false
    ∧ snake_main true jobs =
        .nameError (jobs.map fun jb => (snake_hashRepairStep jb.1 jb.2).1)
          "update_readme_file"
    ∧ ∀ disks r, snake_main true jobs ≠ .completed disks r := by
  refine ⟨by decide, by decide, ?_, ?_⟩
  · unfold snake_main
    rw [if_neg (by decide)]
    rw [if_neg (by decide)]
  · intro disks r hcompleted
    unfold snake_main at hcompleted
    rw [if_neg (by decide), if_neg (by decide)] at hcompleted
    simp at hcompleted

/-- Witness for C10 on a concrete one-manifest bucket. -/
theorem C10_snake_main_name_error_witness :
    snake_main true [(demoManifestNoHash, [97])] =
      .nameError [(snake_hashRepairStep demoManifestNoHash [97]).1]
        "update_readme_file" :=
  (C10_snake_main_name_error [(demoManifestNoHash, [97])]).2.2.1

/-- Folding concatenation over the chunking of a list restores the list. -/
theorem chunksAux_foldl (size : Nat) (hs : 0 < size) :
    ∀ (fuel : Nat) (l acc : List Nat), l.length ≤ fuel →
      (chunksAux size fuel l).foldl (fun a c => a ++ c) acc = acc ++ l := by
  intro fuel
  induction fuel with
  | zero =>
      intro l acc h
      have : l = [] := List.eq_nil_of_length_eq_zero (Nat.le_zero.mp h)
      subst this
      simp [chunksAux]
  | succ fuel ih =>
      intro l acc h
      cases l with
      | nil => simp [chunksAux]
      | cons x xs =>
          have hdrop : ((x :: xs).drop size).length ≤ fuel := by
            rw [List.length_drop]
            simp only [List.length_cons] at h ⊢
            omega
          calc (chunksAux size (fuel + 1) (x :: xs)).foldl
                (fun a c => a ++ c) acc
              = (chunksAux size fuel ((x :: xs).drop size)).foldl
                  (fun a c => a ++ c) (acc ++ (x :: xs).take size) := rfl
            _ = (acc ++ (x :: xs).take size) ++ (x :: xs).drop size :=
                ih _ _ hdrop
            _ = acc ++ (x :: xs) := by
                rw [List.append_assoc, List.take_append_drop]

/-- The chunked digest computation digests exactly the file's byte content:
reading in 4096-byte blocks does not change the digest. -/
theorem calculate_sha256_hash_eq (content : List Nat) :
    calculate_sha256_hash content = pyLower (sha256hex content) := by
  unfold calculate_sha256_hash chunksOf
  rw [chunksAux_foldl 4096 (by decide) content.length content []
    (Nat.le_refl _)]
  rfl

/-- Indexing the hex-digit table always yields a hex digit. -/
theorem getD_mem_hexDigits (i : Nat) : hexDigits.getD i '0' ∈ hexDigits := by
  by_cases h : i < hexDigits.length
  · rw [List.getD_eq_getElem hexDigits '0' h]
    exact List.getElem_mem h
  · rw [List.getD_eq_default hexDigits '0' (Nat.le_of_not_lt h)]
    decide

/-- Every character of a fixed-width hex rendering is a hex digit. -/
theorem mem_of_natToHex {c : Char} {w n : Nat} (h : c ∈ natToHex w n) :
    c ∈ hexDigits := by
  unfold natToHex at h
  obtain ⟨i, _, rfl⟩ := List.mem_map.mp h
  exact getD_mem_hexDigits _

/-- Every character of a SHA-256 hex digest is a hex digit. -/
theorem sha256hex_chars (msg : List Nat) :
    ∀ c ∈ (sha256hex msg).data, c ∈ hexDigits := by
  intro c hc
  unfold sha256hex at hc
  simp only [List.mem_append] at hc
  rcases hc with ((((((h | h) | h) | h) | h) | h) | h) | h <;>
    exact mem_of_natToHex h

/-- The digest string has 64 characters. -/
theorem calc_hash_length (content : List Nat) :
    (calculate_sha256_hash content).data.length = 64 := by
  rw [calculate_sha256_hash_eq]
  show ((sha256hex content).data.map Char.toLower).length = 64
  rw [List.length_map]
  unfold sha256hex
  simp [natToHex]

/-- The digest string is never empty (so it is Python-truthy). -/
theorem calc_hash_ne_empty (content : List Nat) :
    calculate_sha256_hash content ≠ "" := by
  intro h
  have := calc_hash_length content
  rw [h] at this
  simp at this

/-- Every character of the digest is a lowercase hex digit. -/
theorem calc_hash_chars (content : List Nat) :
    ∀ c ∈ (calculate_sha256_hash content).data, c ∈ hexDigits := by
  intro c hc
  rw [calculate_sha256_hash_eq] at hc
  have hmap : (pyLower (sha256hex content)).data =
      (sha256hex content).data.map Char.toLower := rfl
  rw [hmap] at hc
  obtain ⟨c0, hc0, rfl⟩ := List.mem_map.mp hc
  have hmem := sha256hex_chars content c0 hc0
  have hfix : ∀ d ∈ hexDigits, d.toLower = d := by decide
  rw [hfix c0 hmem]
  exact hmem

/-- URL extraction on an `architecture.64bit` manifest with a truthy URL. -/
theorem extract_arch (m : Manifest) (a : Arch64) (au : String)
    (harch : m.architecture64 = some a) (haurl : a.url = some au)
    (hau : au ≠ "") :
    extractUrlHash m = some (au, (a.hash, .arch64)) := by
  unfold extractUrlHash
  rw [harch]
  simp [truthyStr, haurl, hau]

/-- URL extraction falling through to a truthy root URL. -/
theorem extract_root (m : Manifest) (u : String)
    (hA : truthyStr (m.architecture64.bind Arch64.url) = false)
    (hurl : m.url = some u) (hu : u ≠ "") :
    extractUrlHash m = some (u, (m.hash, .root)) := by
  unfold extractUrlHash
  rw [hA]
  simp [truthyStr, hurl, hu]

/-- The hash-repair decision on an `architecture.64bit` manifest: write the
fresh digest exactly when it differs from the stored hash. -/
theorem hashRepairStep_arch (m : Manifest) (a : Arch64) (au : String)
    (content : List Nat)
    (harch : m.architecture64 = some a) (haurl : a.url = some au)
    (hau : au ≠ "") :
    hashRepairStep m content =
      if a.hash = some (calculate_sha256_hash content) then (m, false)
      else
        (Manifest.mk m.version m.url m.hash
          (some (Arch64.mk a.url (some (calculate_sha256_hash content)))),
         true) := by
  have hx := extract_arch m a au harch haurl hau
  unfold hashRepairStep
  rw [hx]
  dsimp only
  rw [harch]
  dsimp only
  by_cases hcur : a.hash = some (calculate_sha256_hash content)
  · simp [hcur]
  · rw [if_pos ⟨calc_hash_ne_empty content, Or.inl hcur⟩, if_neg hcur]

/-- The hash-repair decision on a root-layout manifest. -/
theorem hashRepairStep_root (m : Manifest) (u : String) (content : List Nat)
    (hA : truthyStr (m.architecture64.bind Arch64.url) = false)
    (hurl : m.url = some u) (hu : u ≠ "") :
    hashRepairStep m content =
      if m.hash = some (calculate_sha256_hash content) then (m, false)
      else ({ m with hash := some (calculate_sha256_hash content) },
        true) := by
  have hx := extract_root m u hA hurl hu
  unfold hashRepairStep
  rw [hx]
  dsimp only
  by_cases hcur : m.hash = some (calculate_sha256_hash content)
  · simp [hcur]
  · rw [if_pos ⟨calc_hash_ne_empty content, Or.inl hcur⟩, if_neg hcur]

/--
C8: the hash-repair pass is idempotent.  The digest is a function of the
byte content alone (chunked reading digests the concatenation), every digest
character is a lowercase hex digit, after the first pass the stored hash of
the read layout equals the computed digest, and a second pass over the same
bytes performs no write and leaves the manifest unchanged.
-/
theorem C8_hash_repair_idempotent (m : Manifest) (content : List Nat)
    (hm : extractUrlHash m ≠ none) :
    calculate_sha256_hash content = pyLower (sha256hex content)
    ∧ (∀ c ∈ (calculate_sha256_hash content).data, c ∈ hexDigits)
    ∧ (∃ url layout, extractUrlHash (hashRepairStep m content).1 =
         some (url, (some (calculate_sha256_hash content), layout)))
    ∧ hashRepairStep (hashRepairStep m content).1 content =
        ((hashRepairStep m content).1, false) := by
  refine ⟨calculate_sha256_hash_eq content, calc_hash_chars content, ?_⟩
  by_cases hA : truthyStr (m.architecture64.bind Arch64.url) = true
  · obtain ⟨a, harch⟩ : ∃ a, m.architecture64 = some a := by
      cases harch : m.architecture64 with
      | none =>
          rw [harch] at hA
          simp [truthyStr] at hA
      | some a => exact ⟨a, rfl⟩
    obtain ⟨au, haurl⟩ : ∃ au, a.url = some au := by
      cases haurl : a.url with
      | none =>
          rw [harch] at hA
          simp [truthyStr, haurl] at hA
      | some au => exact ⟨au, rfl⟩
    have hau : au ≠ "" := by
      rw [harch] at hA
      simpa [truthyStr, haurl] using hA
    have hstep := hashRepairStep_arch m a au content harch haurl hau
    by_cases hcur : a.hash = some (calculate_sha256_hash content)
    · rw [if_pos hcur] at hstep
      rw [hstep]
      dsimp only
      refine ⟨⟨au, .arch64, by rw [extract_arch m a au harch haurl hau,
        hcur]⟩, ?_⟩
      rw [hashRepairStep_arch m a au content harch haurl hau, if_pos hcur]
    · rw [if_neg hcur] at hstep
      rw [hstep]
      dsimp only
      have harch1 : (Manifest.mk m.version m.url m.hash
          (some (Arch64.mk a.url
            (some (calculate_sha256_hash content))))).architecture64 =
          some (Arch64.mk a.url (some (calculate_sha256_hash content))) :=
        rfl
      have hstep1 := hashRepairStep_arch
        (Manifest.mk m.version m.url m.hash
          (some (Arch64.mk a.url (some (calculate_sha256_hash content)))))
        (Arch64.mk a.url (some (calculate_sha256_hash content))) au content
        harch1 haurl hau
      refine ⟨⟨au, .arch64, by rw [extract_arch _
        (Arch64.mk a.url (some (calculate_sha256_hash content))) au harch1
        haurl hau]⟩, ?_⟩
      rw [hstep1, if_pos rfl]
  · have hA' : truthyStr (m.architecture64.bind Arch64.url) = false := by
      cases hb : truthyStr (m.architecture64.bind Arch64.url) with
      | false => rfl
      | true => exact absurd hb hA
    by_cases hR : truthyStr m.url = true
    · obtain ⟨u, hurl⟩ : ∃ u, m.url = some u := by
        cases hurl : m.url with
        | none =>
            rw [hurl] at hR
            simp [truthyStr] at hR
        | some u => exact ⟨u, rfl⟩
      have hu : u ≠ "" := by
        rw [hurl] at hR
        simpa [truthyStr] using hR
      have hstep := hashRepairStep_root m u content hA' hurl hu
      by_cases hcur : m.hash = some (calculate_sha256_hash content)
      · rw [if_pos hcur] at hstep
        rw [hstep]
        dsimp only
        refine ⟨⟨u, .root, by rw [extract_root m u hA' hurl hu, hcur]⟩, ?_⟩
        rw [hashRepairStep_root m u content hA' hurl hu, if_pos hcur]
      · rw [if_neg hcur] at hstep
        rw [hstep]
        dsimp only
        have hA1 : truthyStr
            ((Manifest.mk m.version m.url
              (some (calculate_sha256_hash content))
              m.architecture64).architecture64.bind Arch64.url) = false :=
          hA'
        have hurl1 : (Manifest.mk m.version m.url
            (some (calculate_sha256_hash content)) m.architecture64).url =
            some u := hurl
        have hstep1 := hashRepairStep_root
          (Manifest.mk m.version m.url
            (some (calculate_sha256_hash content)) m.architecture64)
          u content hA1 hurl1 hu
        refine ⟨⟨u, .root, by rw [extract_root _ u hA1 hurl1 hu]⟩, ?_⟩
        rw [hstep1, if_pos rfl]
    · exfalso
      apply hm
      have hR' : truthyStr m.url = false := by
        cases hb : truthyStr m.url with
        | false => rfl
        | true => exact absurd hb hR
      unfold extractUrlHash
      rw [hA', hR']
      rfl

/-- Witness for C8 on a concrete root-layout manifest with a missing hash
and one-byte artifact content. -/
theorem C8_hash_repair_idempotent_witness :
    extractUrlHash demoManifestNoHash ≠ none
    ∧ hashRepairStep (hashRepairStep demoManifestNoHash [97]).1 [97] =
        ((hashRepairStep demoManifestNoHash [97]).1, false) :=
  ⟨by decide,
   (C8_hash_repair_idempotent demoManifestNoHash [97] (by decide)).2.2.2⟩

end ScoopBucket
